import Mathlib

/-!
Verification of the natural-language command resolver and the sandboxed
filesystem executor of the CodeMate terminal (main.py / streamlit_app.py).

Strings of the Python source are modelled as lists of characters
(`Str := List Char`); every helper below is a direct transcription of the
corresponding Python string operation or code block.
-/

set_option maxHeartbeats 1000000

abbrev Str := List Char

def str (s : String) : Str := s.toList

def quoteChar : Char := Char.ofNat 34

def aposChar : Char := Char.ofNat 39

/-- ASCII whitespace, as recognised by Python `str.split()` / `str.strip()`
(space, tab, newline, carriage return, vertical tab, form feed). -/
def isSpaceChar (c : Char) : Bool :=
  decide (c = ' ' ∨ c = '\t' ∨ c = '\n' ∨ c = '\r' ∨ c = Char.ofNat 11 ∨ c = Char.ofNat 12)

/-- Python `str.lower()` restricted to ASCII letters. -/
def pyLowerChar (c : Char) : Char :=
  if 'A' ≤ c ∧ c ≤ 'Z' then Char.ofNat (c.toNat + 32) else c

def pyLower (s : Str) : Str := s.map pyLowerChar

/-- Python `str.strip()` (no argument): drop whitespace at both ends. -/
def pyStrip (s : Str) : Str :=
  ((s.dropWhile isSpaceChar).reverse.dropWhile isSpaceChar).reverse

/-- Python `str.strip("\x22'")`: drop quote characters at both ends. -/
def isQuoteChar (c : Char) : Bool := decide (c = quoteChar ∨ c = aposChar)

def stripQuotes (s : Str) : Str :=
  ((s.dropWhile isQuoteChar).reverse.dropWhile isQuoteChar).reverse

/-- Python `str.split()`: whitespace-delimited tokens, empty tokens dropped. -/
def pySplitAux : Str → Str → List Str
  | [], acc => if acc.isEmpty then [] else [acc.reverse]
  | c :: rest, acc =>
    if isSpaceChar c then
      (if acc.isEmpty then pySplitAux rest [] else acc.reverse :: pySplitAux rest [])
    else pySplitAux rest (c :: acc)

def pySplit (s : Str) : List Str := pySplitAux s []

/-- Splitting a path on `/` (used to model OS path resolution). -/
def splitSlashAux : Str → Str → List Str
  | [], acc => [acc.reverse]
  | c :: rest, acc =>
    if c = '/' then acc.reverse :: splitSlashAux rest []
    else splitSlashAux rest (c :: acc)

def splitSlash (s : Str) : List Str := splitSlashAux s []

/-- Python substring test `needle in hay`. -/
def pyIn (needle hay : Str) : Bool :=
  match hay with
  | [] => needle.isEmpty
  | _ :: t => needle.isPrefixOf hay || pyIn needle t

/-- `any(phrase in hay for phrase in needles)`. -/
def pyInAny (hay : Str) (needles : List Str) : Bool :=
  needles.any (fun n => pyIn n hay)

/-- Python membership `w in l` for a list of strings. -/
def memStr (w : Str) (l : List Str) : Bool := l.any (fun x => decide (w = x))

def startsDot (w : Str) : Bool := (str ".").isPrefixOf w

def joinSpace (xs : List Str) : Str := List.intercalate (str " ") xs

def joinNL (xs : List Str) : Str := List.intercalate (str "\n") xs

/-- Python truthiness of an optional string (`if not filename:`). -/
def falsy : Option Str → Bool
  | none => true
  | some s => s.isEmpty

def truthy (o : Option Str) : Bool := !(falsy o)

/-- Python `list.index(x)` (first index), as an option. -/
def pyIndexOf (l : List Str) (a : Str) : Option Nat :=
  match l with
  | [] => none
  | x :: t => if x = a then some 0 else (pyIndexOf t a).map (· + 1)

def countPhrases : List Str :=
  [str "count", str "how many", str "number of files", str "files count"]

namespace StreamlitApp

/-- streamlit_app.py `parse_with_fallback_patterns`, two-word direct rule
(lines 461-472): `"delete x"` ↦ `rm x`, `"create x"`/`"make x"` ↦ `touch x`,
`"mkdir x"` ↦ `mkdir x`, `"rmdir x"` ↦ `rmdir x`. -/
def directCommand (originalWords : List Str) : Option Str :=
  match originalWords with
  | [w0, target] =>
    let action := pyLower w0
    if memStr action [str "delete", str "remove", str "del"] then
      some (str "rm " ++ target)
    else if memStr action [str "create", str "make"] then
      some (str "touch " ++ target)
    else if decide (action = str "mkdir") then some (str "mkdir " ++ target)
    else if decide (action = str "rmdir") then some (str "rmdir " ++ target)
    else none
  | _ => none

/-- Deletion rule, folder branch scan (lines 482-489): a token after
`named`/`called`, or after `folder`/`directory` if that token is not itself
`named`/`called`. -/
def rmdirScan : List Str → Nat → List Str → Option Str
  | [], _, _ => none
  | w :: rest, i, ow =>
    if memStr w [str "named", str "called"] && decide (i + 1 < ow.length) then
      some (stripQuotes (ow.getD (i + 1) []))
    else if memStr w [str "folder", str "directory"] && decide (i + 1 < ow.length) then
      let nw := stripQuotes (ow.getD (i + 1) [])
      if !(memStr nw [str "named", str "called"]) then some nw
      else rmdirScan rest (i + 1) ow
    else rmdirScan rest (i + 1) ow

/-- Deletion rule, file branch, first scan (lines 493-495): a token with a
non-leading dot that is not a stop word. -/
def rmDotScan : List Str → Option Str
  | [] => none
  | w :: rest =>
    if w.contains '.' && !(startsDot w) &&
       !(memStr (pyLower w) [str "delete", str "remove", str "del", str "file", str "the"]) then
      some (stripQuotes w)
    else rmDotScan rest

/-- Deletion rule, file branch, keyword scan (lines 498-505). -/
def rmKeywordScan : List Str → Nat → List Str → Option Str
  | [], _, _ => none
  | w :: rest, i, ow =>
    if memStr w [str "named", str "called"] && decide (i + 1 < ow.length) then
      some (stripQuotes (ow.getD (i + 1) []))
    else if decide (w = str "file") && decide (i + 1 < ow.length) then
      let nw := stripQuotes (ow.getD (i + 1) [])
      if !(memStr nw [str "named", str "called"]) then some nw
      else rmKeywordScan rest (i + 1) ow
    else rmKeywordScan rest (i + 1) ow

/-- Deletion rule, file branch, token after an action word (lines 508-513). -/
def rmAfterActionScan : List Str → Nat → List Str → Option Str
  | [], _, _ => none
  | w :: rest, i, ow =>
    if memStr w [str "delete", str "remove", str "del"] && decide (i + 1 < ow.length) then
      let nw := stripQuotes (ow.getD (i + 1) [])
      if !(memStr nw [str "the", str "a", str "an", str "file", str "named", str "called"]) then
        some nw
      else rmAfterActionScan rest (i + 1) ow
    else rmAfterActionScan rest (i + 1) ow

/-- Deletion rule (lines 479-515); always produces a command once the
delete-phrase guard fired. -/
def deletionRule (cmdLower : Str) (originalWords : List Str) : Str :=
  if pyIn (str "folder") cmdLower || pyIn (str "directory") cmdLower then
    match rmdirScan (pySplit cmdLower) 0 originalWords with
    | some t => str "rmdir " ++ t
    | none => str "rmdir temp"
  else
    match rmDotScan originalWords with
    | some t => str "rm " ++ t
    | none =>
      match rmKeywordScan (pySplit cmdLower) 0 originalWords with
      | some t => str "rm " ++ t
      | none =>
        match rmAfterActionScan (pySplit cmdLower) 0 originalWords with
        | some t => str "rm " ++ t
        | none => str "rm temp.txt"

/-- Creation rule, file-name scan (lines 523-529). -/
def createFileScan : List Str → Nat → List Str → Option Str
  | [], _, _ => none
  | w :: rest, i, ow =>
    if memStr w [str "named", str "called"] && decide (i + 1 < ow.length) then
      some (stripQuotes (ow.getD (i + 1) []))
    else if decide (w = str "file") && decide (i + 1 < ow.length) &&
            !(memStr (pyLower (ow.getD (i + 1) [])) [str "named", str "called"]) then
      some (stripQuotes (ow.getD (i + 1) []))
    else createFileScan rest (i + 1) ow

/-- Scan for a token containing a non-leading dot (lines 533-536, 583-586). -/
def dotScan : List Str → Option Str
  | [] => none
  | w :: rest =>
    if w.contains '.' && !(startsDot w) then some (stripQuotes w)
    else dotScan rest

/-- Extension inference of the creation rule (lines 539-551): note there is
no `java` case in this variant, and the default is `.txt`. -/
def appendExt (cmdLower : Str) (filename : Str) : Str :=
  if pyIn (str "python") cmdLower then filename ++ str ".py"
  else if pyIn (str "txt") cmdLower || pyIn (str "text") cmdLower then filename ++ str ".txt"
  else if pyIn (str "html") cmdLower then filename ++ str ".html"
  else if pyIn (str "css") cmdLower then filename ++ str ".css"
  else if pyIn (str "js") cmdLower || pyIn (str "javascript") cmdLower then filename ++ str ".js"
  else filename ++ str ".txt"

/-- Creation rule, folder-name scan (lines 558-566). -/
def createDirScan : List Str → Nat → List Str → Option Str
  | [], _, _ => none
  | w :: rest, i, ow =>
    if memStr w [str "named", str "called"] && decide (i + 1 < ow.length) then
      some (stripQuotes (ow.getD (i + 1) []))
    else if memStr w [str "folder", str "directory"] && decide (i + 1 < ow.length) &&
            !(memStr (pyLower (stripQuotes (ow.getD (i + 1) []))) [str "named", str "called"]) then
      some (stripQuotes (ow.getD (i + 1) []))
    else createDirScan rest (i + 1) ow

/-- Creation rule (lines 518-568); `none` when neither `file` nor
`folder`/`directory` is mentioned (the Python code then falls through). -/
def creationRule (cmdLower : Str) (originalWords : List Str) : Option Str :=
  if pyIn (str "file") cmdLower then
    let fn1 := createFileScan (pySplit cmdLower) 0 originalWords
    let fn2 := if falsy fn1 then
                 (match dotScan originalWords with
                  | some v => some v
                  | none => fn1)
               else fn1
    some (if truthy fn2 then
            let filename := fn2.getD []
            if filename.contains '.' then str "touch " ++ filename
            else str "touch " ++ appendExt cmdLower filename
          else str "touch newfile.txt")
  else if pyIn (str "folder") cmdLower || pyIn (str "directory") cmdLower then
    some (match createDirScan (pySplit cmdLower) 0 originalWords with
          | some d => if d.isEmpty then str "mkdir newfolder" else str "mkdir " ++ d
          | none => str "mkdir newfolder")
  else none

/-- Write rule, filename after `to`/`in` (lines 576-579); the scan indexes
the same token list it iterates. -/
def writeToScan : List Str → Option Str
  | w :: next :: rest =>
    if memStr (pyLower w) [str "to", str "in"] then some (stripQuotes next)
    else writeToScan (next :: rest)
  | _ => none

/-- Write rule, content tokens between `write` and the first `to`/`in`
(lines 590-599). -/
def writeContentScan : List Str → Bool → List Str
  | [], _ => []
  | w :: rest, collecting =>
    if decide (pyLower w = str "write") then writeContentScan rest true
    else if memStr (pyLower w) [str "to", str "in"] then []
    else if collecting then w :: writeContentScan rest collecting
    else writeContentScan rest collecting

/-- Write rule (lines 571-602); `none` when no filename was found (the
Python code then falls through to the listing rules). -/
def writeRule (originalWords : List Str) : Option Str :=
  let fn1 := writeToScan originalWords
  let fn2 := if falsy fn1 then
               (match dotScan originalWords with
                | some v => some v
                | none => fn1)
             else fn1
  if truthy fn2 then
    let filename := fn2.getD []
    let content := stripQuotes (joinSpace (writeContentScan originalWords false))
    if content.isEmpty then some (str "touch " ++ filename)
    else some (str "echo " ++ content ++ str " > " ++ filename)
  else none

/-- streamlit_app.py `parse_with_fallback_patterns` (lines 455-612):
ordered heuristic rules; `none` models Python's `return None`. -/
def parse_with_fallback_patterns (command : Str) : Option Str :=
  let cmdLower := pyStrip (pyLower command)
  let originalWords := pySplit command
  match directCommand originalWords with
  | some r => some r
  | none =>
    if pyInAny cmdLower countPhrases then some (str "count")
    else if pyInAny cmdLower [str "delete", str "remove", str "del"] then
      some (deletionRule cmdLower originalWords)
    else
      match (if pyIn (str "create") cmdLower || pyIn (str "make") cmdLower then
               creationRule cmdLower originalWords
             else none) with
      | some r => some r
      | none =>
        match (if pyIn (str "write") cmdLower &&
                  (pyIn (str "to") cmdLower || pyIn (str "in") cmdLower) then
                 writeRule originalWords
               else none) with
        | some r => some r
        | none =>
          if pyInAny cmdLower
              [str "show", str "list", str "what files", str "see files", str "display files"] then
            some (str "ls")
          else if pyInAny cmdLower
              [str "what" ++ [aposChar] ++ str "s here", str "what is here", str "contents"] then
            some (str "ls")
          else none

/-- streamlit_app.py `nl_to_command` (lines 109-122): stub translator whose
last line returns the input unchanged (`return nl`). -/
def nl_to_command (nl : Str) : Str :=
  let nlLower := pyLower nl
  if pyIn (str "create") nlLower && pyIn (str "file") nlLower then str "touch newfile.txt"
  else if pyIn (str "create") nlLower &&
          (pyIn (str "folder") nlLower || pyIn (str "directory") nlLower) then
    str "mkdir newfolder"
  else if pyIn (str "list") nlLower || pyIn (str "show") nlLower then str "ls"
  else if pyIn (str "help") nlLower then str "help"
  else nl

end StreamlitApp

namespace MainPy

/-- main.py creation-rule filename scan (lines 272-281); this variant scans
and indexes the lowercased token list. -/
def createFileScan : List Str → Option Str
  | w :: next :: rest =>
    if memStr w [str "named", str "called"] then some (stripQuotes next)
    else if decide (w = str "file") && !(memStr next [str "named", str "called"]) then
      some (stripQuotes next)
    else createFileScan (next :: rest)
  | _ => none

/-- main.py extension inference (lines 285-291): `java` first, then
`py`/`python`, then `txt`/`text`; otherwise the name is left as is. -/
def appendExt (cmdLower : Str) (filename : Str) : Str :=
  if pyIn (str "java") cmdLower then filename ++ str ".java"
  else if pyIn (str "py") cmdLower || pyIn (str "python") cmdLower then filename ++ str ".py"
  else if pyIn (str "txt") cmdLower || pyIn (str "text") cmdLower then filename ++ str ".txt"
  else filename

/-- main.py creation rule (lines 266-295); `none` when neither `file` nor
`folder`/`directory` is mentioned. -/
def creationRule (cmdLower : Str) : Option Str :=
  if pyIn (str "file") cmdLower then
    some (match createFileScan (pySplit cmdLower) with
          | some filename =>
            if filename.isEmpty then str "touch newfile.txt"
            else if filename.contains '.' then str "touch " ++ filename
            else str "touch " ++ appendExt cmdLower filename
          | none => str "touch newfile.txt")
  else if pyIn (str "folder") cmdLower || pyIn (str "directory") cmdLower then
    some (str "mkdir newfolder")
  else none

/-- main.py `parse_with_fallback_patterns` (lines 257-301): only counting,
creation and listing rules; no two-word, deletion or write rules. -/
def parse_with_fallback_patterns (command : Str) : Option Str :=
  let cmdLower := pyStrip (pyLower command)
  if pyInAny cmdLower countPhrases then some (str "count")
  else
    match (if pyIn (str "create") cmdLower || pyIn (str "make") cmdLower then
             creationRule cmdLower
           else none) with
    | some r => some r
    | none =>
      if pyInAny cmdLower [str "show", str "list", str "what files", str "see files"] then
        some (str "ls")
      else none

end MainPy

/-!
Filesystem model for the executor (`cmd_*` methods of streamlit_app.py;
main.py's `cmd_rm`/`cmd_mkdir`/`cmd_touch` have the same filesystem
semantics).  The filesystem is a finite map from absolute, resolved paths
(lists of segments) to nodes; the root directory exists implicitly.
-/

inductive Node : Type
  | file (content : Str)
  | dir
deriving DecidableEq

abbrev FS := List (List Str × Node)

def lookupFS : FS → List Str → Option Node
  | [], _ => none
  | (q, n) :: t, p => if q = p then some n else lookupFS t p

def setFS : FS → List Str → Node → FS
  | [], p, n => [(p, n)]
  | (q, m) :: t, p, n => if q = p then (p, n) :: t else (q, m) :: setFS t p n

def removeFS (fs : FS) (p : List Str) : FS :=
  fs.filter (fun e => decide (e.1 ≠ p))

/-- One step of OS path normalisation: `os.path.join(cwd, f)` followed by the
kernel's resolution of `.` and `..` when the path is used. -/
def resolveStep (acc : List Str) (seg : Str) : List Str :=
  if seg = [] ∨ seg = str "." then acc
  else if seg = str ".." then acc.dropLast
  else acc ++ [seg]

def resolvePath (cwd : List Str) (f : Str) : List Str :=
  (splitSlash f).foldl resolveStep cwd

def isFileAt (fs : FS) (p : List Str) : Bool :=
  match lookupFS fs p with
  | some (Node.file _) => true
  | _ => false

def isDirAt (fs : FS) (p : List Str) : Bool := decide (lookupFS fs p = some Node.dir)

/-- The parent directory exists (the root `[]` always exists). -/
def dirExists (fs : FS) (p : List Str) : Bool := p.isEmpty || isDirAt fs p

def isChildPath (p q : List Str) : Bool :=
  decide (q.length = p.length + 1) && p.isPrefixOf q

/-- Truthiness of `os.listdir(path)`: the directory has at least one child. -/
def hasChildren (fs : FS) (p : List Str) : Bool := fs.any (fun e => isChildPath p e.1)

inductive ReadResult : Type
  | ok (content : Str)
  | notFound
  | ioError
deriving DecidableEq

/-- `open(path).read()`: content, `FileNotFoundError`, or another failure. -/
def fsRead (fs : FS) (p : List Str) : ReadResult :=
  match lookupFS fs p with
  | some (Node.file c) => ReadResult.ok c
  | some Node.dir => ReadResult.ioError
  | none => ReadResult.notFound

/-- `open(path, "w"); f.write(content)`: fails on a directory target or a
missing parent directory, otherwise creates/overwrites. -/
def fsWrite (fs : FS) (p : List Str) (c : Str) : Option FS :=
  if isDirAt fs p then none
  else if decide (p ≠ []) && dirExists fs p.dropLast then some (setFS fs p (Node.file c))
  else none

/-- `open(path, "a"): pass`: an existing file is left untouched (only its
mtime changes); a directory target or missing parent fails. -/
def fsTouch (fs : FS) (p : List Str) : Option FS :=
  match lookupFS fs p with
  | some (Node.file _) => some fs
  | some Node.dir => none
  | none =>
    if decide (p ≠ []) && dirExists fs p.dropLast then some (setFS fs p (Node.file []))
    else none

/-- The nonempty path segments created by `os.makedirs`. -/
def pathSegs (p : List Str) : List (List Str) :=
  (List.range p.length).map (fun i => p.take (i + 1))

def mkdirsFold (fs : FS) (ql : List (List Str)) : FS :=
  ql.foldl (fun acc q => if isDirAt acc q then acc else setFS acc q Node.dir) fs

/-- `os.makedirs(path, exist_ok=True)`: fails when some segment of the path
already exists as a file, otherwise creates every missing directory. -/
def fsMakedirs (fs : FS) (p : List Str) : Option FS :=
  if (pathSegs p).any (fun q => isFileAt fs q) then none
  else some (mkdirsFold fs (pathSegs p))

namespace StreamlitApp

/-- `cmd_mkdir` loop (lines 756-766), threading the filesystem. -/
def mkdirLoop : FS → List Str → List Str → FS × List Str
  | fs, _, [] => (fs, [])
  | fs, cwd, d :: rest =>
    match fsMakedirs fs (resolvePath cwd d) with
    | some fs1 =>
      let r := mkdirLoop fs1 cwd rest
      (r.1, (str "✅ Directory created: " ++ d) :: r.2)
    | none =>
      let r := mkdirLoop fs cwd rest
      (r.1, (str "❌ Error creating directory " ++ d) :: r.2)

def cmd_mkdir (fs : FS) (cwd : List Str) (args : List Str) : FS × Str :=
  let r := mkdirLoop fs cwd args
  (r.1, joinNL r.2)

/-- `cmd_touch` loop (lines 768-779). -/
def touchLoop : FS → List Str → List Str → FS × List Str
  | fs, _, [] => (fs, [])
  | fs, cwd, f :: rest =>
    match fsTouch fs (resolvePath cwd f) with
    | some fs1 =>
      let r := touchLoop fs1 cwd rest
      (r.1, (str "✅ File " ++ [aposChar] ++ f ++ [aposChar] ++ str " created/updated") :: r.2)
    | none =>
      let r := touchLoop fs cwd rest
      (r.1, (str "❌ Error creating file " ++ f) :: r.2)

def cmd_touch (fs : FS) (cwd : List Str) (args : List Str) : FS × Str :=
  let r := touchLoop fs cwd args
  (r.1, joinNL r.2)

/-- `cmd_rm` loop (lines 831-846): `os.path.join(cwd, filename)` with no
sandbox check of any kind; an escaping path is simply resolved and, if it
names a file, deleted. -/
def rmLoop : FS → List Str → List Str → FS × List Str
  | fs, _, [] => (fs, [])
  | fs, cwd, f :: rest =>
    let p := resolvePath cwd f
    if isFileAt fs p then
      let r := rmLoop (removeFS fs p) cwd rest
      (r.1, (str "✅ File removed: " ++ f) :: r.2)
    else if isDirAt fs p then
      let r := rmLoop fs cwd rest
      (r.1, (str "❌ Cannot remove directory " ++ f ++ str " with rm. Use " ++ [aposChar] ++
             str "rmdir " ++ f ++ [aposChar] ++ str " instead.") :: r.2)
    else
      let r := rmLoop fs cwd rest
      (r.1, (str "❌ File not found: " ++ f) :: r.2)

def cmd_rm (fs : FS) (cwd : List Str) (args : List Str) : FS × Str :=
  let r := rmLoop fs cwd args
  (r.1, joinNL r.2)

/-- `cmd_rmdir` loop (lines 848-865): refuses non-empty directories. -/
def rmdirLoop : FS → List Str → List Str → FS × List Str
  | fs, _, [] => (fs, [])
  | fs, cwd, d :: rest =>
    let p := resolvePath cwd d
    if isDirAt fs p then
      if hasChildren fs p then
        let r := rmdirLoop fs cwd rest
        (r.1, (str "❌ Directory not empty: " ++ d ++ str ". Use " ++ [aposChar] ++
               str "rmdir -r " ++ d ++ [aposChar] ++ str " to force removal.") :: r.2)
      else
        let r := rmdirLoop (removeFS fs p) cwd rest
        (r.1, (str "✅ Directory removed: " ++ d) :: r.2)
    else
      let r := rmdirLoop fs cwd rest
      (r.1, (str "❌ Directory not found: " ++ d) :: r.2)

def cmd_rmdir (fs : FS) (cwd : List Str) (args : List Str) : FS × Str :=
  let r := rmdirLoop fs cwd args
  (r.1, joinNL r.2)

/-- `cmd_rmdir_force` loop (lines 867-880): the body calls `shutil.rmtree`,
but streamlit_app.py never imports `shutil`, so on an existing directory the
call raises `NameError`, which the `except` clause turns into an error
message; the filesystem is never modified. -/
def rmdirForceLoop : FS → List Str → List Str → FS × List Str
  | fs, _, [] => (fs, [])
  | fs, cwd, d :: rest =>
    let p := resolvePath cwd d
    if isDirAt fs p then
      let r := rmdirForceLoop fs cwd rest
      (r.1, (str "❌ Error removing directory " ++ d ++ str ": name " ++ [aposChar] ++
             str "shutil" ++ [aposChar] ++ str " is not defined") :: r.2)
    else
      let r := rmdirForceLoop fs cwd rest
      (r.1, (str "❌ Directory not found: " ++ d) :: r.2)

def cmd_rmdir_force (fs : FS) (cwd : List Str) (args : List Str) : FS × Str :=
  let r := rmdirForceLoop fs cwd args
  (r.1, joinNL r.2)

/-- `cmd_cat`, one file (lines 781-794). -/
def catOne (fs : FS) (cwd : List Str) (f : Str) : Str :=
  match fsRead fs (resolvePath cwd f) with
  | ReadResult.ok c => str "📄 **" ++ f ++ str ":**\n```\n" ++ c ++ str "\n```"
  | ReadResult.notFound => str "❌ File not found: " ++ f
  | ReadResult.ioError => str "❌ Error reading file " ++ f

def cmd_cat (fs : FS) (cwd : List Str) (args : List Str) : Str :=
  joinNL (args.map (catOne fs cwd))

/-- `cmd_echo` (lines 796-813): display when there is no `>` redirect,
otherwise write the joined tokens before `>` to the file named after it. -/
def cmd_echo (fs : FS) (cwd : List Str) (args : List Str) : FS × Str :=
  if decide (args.length < 3) || !(decide (str ">" ∈ args)) then (fs, joinSpace args)
  else
    match pyIndexOf args (str ">") with
    | none => (fs, joinSpace args)
    | some ri =>
      let content := joinSpace (args.take ri)
      let filename := args.getD (ri + 1) (str "output.txt")
      match fsWrite fs (resolvePath cwd filename) content with
      | some fs1 => (fs1, str "✅ Content written to " ++ filename)
      | none => (fs, str "❌ Error writing to file: " ++ filename)

end StreamlitApp

/-- The fixed verb set of the spec's `ResolvedCommand`, in its literal
command-string spelling. -/
def knownVerbs : List Str :=
  [str "ls", str "pwd", str "mkdir", str "touch", str "cat", str "rm", str "rmdir",
   str "echo", str "count", str "help"]

def beginsWithKnownVerb (r : Str) : Bool := knownVerbs.any (fun v => v.isPrefixOf r)

def endsWithStr (suffix s : Str) : Bool := suffix.reverse.isPrefixOf s.reverse

/-- A well-formed filesystem maps each path to at most one node. -/
def wfFS (fs : FS) : Prop := (fs.map Prod.fst).Nodup

instance : DecidablePred wfFS := fun fs => by unfold wfFS; infer_instance

def countPath (fs : FS) (p : List Str) : Nat :=
  (fs.filter (fun e => decide (e.1 = p))).length

/-! ### Helper lemmas -/

theorem joinNL_single (m : Str) : joinNL [m] = m := by
  simp [joinNL, List.intercalate]

theorem isPrefixOf_append_self (l m : List Char) : l.isPrefixOf (l ++ m) = true := by
  induction l with
  | nil => simp [List.isPrefixOf]
  | cons c t ih => simp [List.isPrefixOf, ih]

theorem lookup_set_self (fs : FS) (p : List Str) (n : Node) :
    lookupFS (setFS fs p n) p = some n := by
  induction fs with
  | nil => simp [setFS, lookupFS]
  | cons e t ih =>
    obtain ⟨q, m⟩ := e
    by_cases hq : q = p
    · simp [setFS, lookupFS, hq]
    · simp [setFS, lookupFS, hq, ih]

theorem lookup_set_ne (fs : FS) (p q : List Str) (n : Node) (h : q ≠ p) :
    lookupFS (setFS fs p n) q = lookupFS fs q := by
  have hpq : ¬ p = q := fun hh => h hh.symm
  induction fs with
  | nil => simp only [setFS, lookupFS, if_neg hpq]
  | cons e t ih =>
    obtain ⟨r, m⟩ := e
    by_cases hr : r = p
    · simp only [setFS, if_pos hr, lookupFS, hr, if_neg hpq]
    · simp only [setFS, if_neg hr, lookupFS, ih]

theorem isFileAt_congr (fs fs' : FS) (p : List Str)
    (h : lookupFS fs' p = lookupFS fs p) : isFileAt fs' p = isFileAt fs p := by
  unfold isFileAt
  rw [h]

theorem mkdirsFold_cons (fs : FS) (q : List Str) (ql : List (List Str)) :
    mkdirsFold fs (q :: ql) =
      mkdirsFold (if isDirAt fs q then fs else setFS fs q Node.dir) ql := by
  simp [mkdirsFold]

theorem lookup_mkdirsFold_dir (ql : List (List Str)) (fs : FS) (q : List Str)
    (h : lookupFS fs q = some Node.dir) :
    lookupFS (mkdirsFold fs ql) q = some Node.dir := by
  induction ql generalizing fs with
  | nil => exact h
  | cons q0 rest ih =>
    rw [mkdirsFold_cons]
    apply ih
    by_cases h0 : isDirAt fs q0 = true
    · simp [h0, h]
    · simp only [h0, Bool.false_eq_true, if_false]
      by_cases hq : q = q0
      · subst hq
        rw [lookup_set_self]
      · rw [lookup_set_ne _ _ _ _ hq]
        exact h

theorem mkdirsFold_all_dirs (ql : List (List Str)) (fs : FS)
    (h : ∀ q ∈ ql, isFileAt fs q = false) :
    ∀ q ∈ ql, lookupFS (mkdirsFold fs ql) q = some Node.dir := by
  induction ql generalizing fs with
  | nil => intro q hq; simp at hq
  | cons q0 rest ih =>
    intro q hq
    rw [mkdirsFold_cons]
    have h10 : lookupFS (if isDirAt fs q0 then fs else setFS fs q0 Node.dir) q0 =
        some Node.dir := by
      by_cases h0 : isDirAt fs q0 = true
      · simp only [h0, if_true]
        exact of_decide_eq_true h0
      · simp only [h0, Bool.false_eq_true, if_false]
        exact lookup_set_self fs q0 Node.dir
    have hother : ∀ r ∈ rest, isFileAt (if isDirAt fs q0 then fs else setFS fs q0 Node.dir) r =
        false := by
      intro r hr
      by_cases hrq : r = q0
      · subst hrq
        unfold isFileAt
        rw [h10]
      · by_cases h0 : isDirAt fs q0 = true
        · simp only [h0, if_true]
          exact h r (List.mem_cons_of_mem _ hr)
        · simp only [h0, Bool.false_eq_true, if_false]
          rw [isFileAt_congr fs _ r (lookup_set_ne fs q0 r Node.dir hrq)]
          exact h r (List.mem_cons_of_mem _ hr)
    rcases List.mem_cons.mp hq with rfl | hq'
    · exact lookup_mkdirsFold_dir rest _ q h10
    · exact ih _ hother q hq'

theorem mkdirsFold_noop (ql : List (List Str)) (fs : FS)
    (h : ∀ q ∈ ql, lookupFS fs q = some Node.dir) : mkdirsFold fs ql = fs := by
  induction ql with
  | nil => rfl
  | cons q0 rest ih =>
    rw [mkdirsFold_cons]
    have h0 : isDirAt fs q0 = true := decide_eq_true (h q0 (List.mem_cons_self _ _))
    simp only [h0, if_true]
    exact ih fun q hq => h q (List.mem_cons_of_mem _ hq)

theorem setFS_cons_eq (q : List Str) (m : Node) (t : FS) (n : Node) :
    setFS ((q, m) :: t) q n = (q, n) :: t := by simp [setFS]

theorem setFS_cons_ne (q p : List Str) (m : Node) (t : FS) (n : Node) (h : q ≠ p) :
    setFS ((q, m) :: t) p n = (q, m) :: setFS t p n := by simp [setFS, h]

theorem mem_keys_set (fs : FS) (p : List Str) (n : Node) (r : List Str) :
    r ∈ (setFS fs p n).map Prod.fst ↔ r ∈ fs.map Prod.fst ∨ r = p := by
  induction fs with
  | nil => simp [setFS]
  | cons e t ih =>
    obtain ⟨q, m⟩ := e
    by_cases hq : q = p
    · subst hq
      rw [setFS_cons_eq]
      simp only [List.map_cons, List.mem_cons]
      tauto
    · rw [setFS_cons_ne _ _ _ _ _ hq]
      simp only [List.map_cons, List.mem_cons, ih]
      tauto

theorem wf_set (fs : FS) (p : List Str) (n : Node) (h : wfFS fs) : wfFS (setFS fs p n) := by
  induction fs with
  | nil => simp [wfFS, setFS]
  | cons e t ih =>
    obtain ⟨q, m⟩ := e
    rw [wfFS, List.map_cons, List.nodup_cons] at h
    obtain ⟨hq, ht⟩ := h
    by_cases hqp : q = p
    · rw [wfFS]
      simp only [setFS, if_pos hqp, List.map_cons, List.nodup_cons]
      exact ⟨hqp ▸ hq, ht⟩
    · rw [wfFS]
      simp only [setFS, if_neg hqp, List.map_cons, List.nodup_cons]
      refine ⟨?_, ih ht⟩
      rw [mem_keys_set]
      rintro (hmem | rfl)
      · exact hq hmem
      · exact hqp rfl

theorem wf_mkdirsFold (ql : List (List Str)) (fs : FS) (h : wfFS fs) :
    wfFS (mkdirsFold fs ql) := by
  induction ql generalizing fs with
  | nil => exact h
  | cons q0 rest ih =>
    rw [mkdirsFold_cons]
    apply ih
    by_cases h0 : isDirAt fs q0 = true
    · simp [h0, h]
    · simp only [h0, Bool.false_eq_true, if_false]
      exact wf_set fs q0 Node.dir h

theorem countPath_zero (fs : FS) (p : List Str) (h : p ∉ fs.map Prod.fst) :
    countPath fs p = 0 := by
  induction fs with
  | nil => rfl
  | cons e t ih =>
    obtain ⟨q, m⟩ := e
    simp only [List.map_cons, List.mem_cons] at h
    push_neg at h
    obtain ⟨hq, ht⟩ := h
    simp only [countPath, List.filter_cons]
    rw [decide_eq_false (by simpa using fun hh => hq hh.symm)]
    exact ih ht

theorem countPath_of_lookup (fs : FS) (p : List Str) (n : Node) (hwf : wfFS fs)
    (h : lookupFS fs p = some n) : countPath fs p = 1 := by
  induction fs with
  | nil => simp [lookupFS] at h
  | cons e t ih =>
    obtain ⟨q, m⟩ := e
    rw [wfFS, List.map_cons, List.nodup_cons] at hwf
    obtain ⟨hq, ht⟩ := hwf
    rw [lookupFS] at h
    by_cases hqp : q = p
    · subst hqp
      simp only [countPath, List.filter_cons, decide_eq_true rfl]
      have : countPath t q = 0 := countPath_zero t q hq
      simp only [countPath] at this
      simp [this]
    · rw [if_neg hqp] at h
      simp only [countPath, List.filter_cons]
      rw [decide_eq_false hqp]
      exact ih ht h

theorem fsWrite_read (fs fs' : FS) (p : List Str) (c : Str)
    (h : fsWrite fs p c = some fs') : fsRead fs' p = ReadResult.ok c := by
  unfold fsWrite at h
  split at h
  · simp at h
  · split at h
    · obtain rfl := (Option.some.inj h).symm
      unfold fsRead
      rw [lookup_set_self]
    · simp at h

theorem pyIndexOf_append_first (cs ys : List Str) (a : Str) (h : a ∉ cs) :
    pyIndexOf (cs ++ a :: ys) a = some cs.length := by
  induction cs with
  | nil => simp [pyIndexOf]
  | cons c t ih =>
    simp only [List.mem_cons] at h
    push_neg at h
    obtain ⟨hc, ht⟩ := h
    simp only [List.cons_append, pyIndexOf, List.append_eq]
    rw [if_neg (fun hh : c = a => hc hh.symm), ih ht]
    rfl

theorem getD_append_second {α : Type} (cs : List α) (y z : α) (t : List α) (d : α) :
    (cs ++ y :: z :: t).getD (cs.length + 1) d = z := by
  induction cs with
  | nil => rfl
  | cons c rest ih =>
    simpa [List.getD] using ih

/-! ### Claim C1 -/

/-- Claim C1 (refuted; code bug): `cmd_rm` performs no sandbox check.  With
the working directory `/app/ws` and an existing file `/etc/passwd`, the
command `rm ../../etc/passwd` resolves outside the sandbox, deletes
`/etc/passwd` and reports success; no `SandboxViolation` failure exists
anywhere in the executor. -/
theorem c1_rm_escapes_sandbox :
    StreamlitApp.cmd_rm
      [([str "etc"], Node.dir), ([str "etc", str "passwd"], Node.file (str "root:x:0:0")),
       ([str "app"], Node.dir), ([str "app", str "ws"], Node.dir)]
      [str "app", str "ws"] [str "../../etc/passwd"] =
      ([([str "etc"], Node.dir), ([str "app"], Node.dir), ([str "app", str "ws"], Node.dir)],
       str "✅ File removed: ../../etc/passwd") ∧
    lookupFS [([str "etc"], Node.dir), ([str "app"], Node.dir), ([str "app", str "ws"], Node.dir)]
      [str "etc", str "passwd"] = none := by decide

/-! ### Claim C2 -/

/-- Claim C2 (confirmed): any input whose whitespace tokenisation is exactly
`[action, target]` with action ∈ {delete, remove, del} resolves, via the
two-word direct rule, to `rm target` with the target unchanged. -/
theorem c2_two_word_remove (cmd a t : Str) (hsplit : pySplit cmd = [a, t])
    (ha : a = str "delete" ∨ a = str "remove" ∨ a = str "del") :
    StreamlitApp.parse_with_fallback_patterns cmd = some (str "rm " ++ t) := by
  have hm : memStr (pyLower a) [str "delete", str "remove", str "del"] = true := by
    rcases ha with rfl | rfl | rfl <;> decide
  have hd : StreamlitApp.directCommand [a, t] = some (str "rm " ++ t) := by
    unfold StreamlitApp.directCommand
    simp [hm]
  unfold StreamlitApp.parse_with_fallback_patterns
  simp only [hsplit, hd]

/-- Witness for C2 at the concrete input `"delete notes.txt"`. -/
theorem c2_two_word_remove_witness :
    pySplit (str "delete notes.txt") = [str "delete", str "notes.txt"] ∧
    StreamlitApp.parse_with_fallback_patterns (str "delete notes.txt") =
      some (str "rm " ++ str "notes.txt") :=
  ⟨by decide,
   c2_two_word_remove (str "delete notes.txt") (str "delete") (str "notes.txt") (by decide)
     (Or.inl rfl)⟩

/-! ### Claim C3 -/

/-- Claim C3 (half refuted; code bug): on a non-empty directory `d`,
`cmd_rmdir` does report the not-empty failure and leaves everything
untouched, but the forced variant `cmd_rmdir_force` does NOT remove the
subtree: its body calls `shutil.rmtree` while streamlit_app.py never imports
`shutil`, so the call raises `NameError` and the directory and its contents
survive. -/
theorem c3_rmdir_force_broken :
    StreamlitApp.cmd_rmdir
        [([str "d"], Node.dir), ([str "d", str "x.txt"], Node.file [])] [] [str "d"] =
      ([([str "d"], Node.dir), ([str "d", str "x.txt"], Node.file [])],
       str "❌ Directory not empty: d. Use " ++ [aposChar] ++ str "rmdir -r d" ++ [aposChar] ++
         str " to force removal.") ∧
    StreamlitApp.cmd_rmdir_force
        [([str "d"], Node.dir), ([str "d", str "x.txt"], Node.file [])] [] [str "d"] =
      ([([str "d"], Node.dir), ([str "d", str "x.txt"], Node.file [])],
       str "❌ Error removing directory d: name " ++ [aposChar] ++ str "shutil" ++ [aposChar] ++
         str " is not defined") := by decide

/-! ### Claim C4 -/

/-- Counterexample for C4: the fallback resolvers of main.py and
streamlit_app.py are not behaviourally equivalent — on `"delete x"` the
main.py resolver has no applicable rule and yields no command, while the
streamlit_app.py resolver yields `rm x`. -/
theorem c4_resolvers_differ :
    MainPy.parse_with_fallback_patterns (str "delete x") = none ∧
    StreamlitApp.parse_with_fallback_patterns (str "delete x") = some (str "rm x") := by decide

/-- Claim C4 (corrected): the resolvers do agree on the counting rule they
share — whenever the lowered input contains a counting phrase and the
streamlit-only two-word direct rule does not fire, both resolvers yield
`count`. -/
theorem c4_resolvers_agree_on_count (cmd : Str)
    (h1 : StreamlitApp.directCommand (pySplit cmd) = none)
    (h2 : pyInAny (pyStrip (pyLower cmd)) countPhrases = true) :
    MainPy.parse_with_fallback_patterns cmd = some (str "count") ∧
    StreamlitApp.parse_with_fallback_patterns cmd = some (str "count") := by
  constructor
  · unfold MainPy.parse_with_fallback_patterns
    simp only [h2, if_true]
  · unfold StreamlitApp.parse_with_fallback_patterns
    simp only [h1, h2, if_true]

/-- Witness for C4's corrected claim at `"how many files are here"`. -/
theorem c4_resolvers_agree_on_count_witness :
    MainPy.parse_with_fallback_patterns (str "how many files are here") = some (str "count") ∧
    StreamlitApp.parse_with_fallback_patterns (str "how many files are here") =
      some (str "count") :=
  c4_resolvers_agree_on_count (str "how many files are here") (by decide) (by decide)

/-! ### Claim C7 -/

/-- Counterexample for C7: in streamlit_app.py's creation rule there is no
`java` keyword case at all; `"create a file named prog in java"` extracts the
extension-less name `prog` and falls to the `.txt` default, so the resulting
command does not end in `.java`. -/
theorem c7_streamlit_no_java :
    StreamlitApp.parse_with_fallback_patterns (str "create a file named prog in java") =
      some (str "touch prog.txt") ∧
    endsWithStr (str ".java") (str "touch prog.txt") = false := by decide

/-- Claim C7 (corrected): only main.py's creation rule has the `java` case
(priority java, then py/python, then txt/text, then no extension).  For any
creation request whose extracted name lacks a dot and whose lowered text
contains `java`, main.py's resolver emits `touch name.java`. -/
theorem c7_main_java_extension (cmd name : Str)
    (h1 : pyInAny (pyStrip (pyLower cmd)) countPhrases = false)
    (h2 : (pyIn (str "create") (pyStrip (pyLower cmd)) ||
           pyIn (str "make") (pyStrip (pyLower cmd))) = true)
    (h3 : pyIn (str "file") (pyStrip (pyLower cmd)) = true)
    (h4 : MainPy.createFileScan (pySplit (pyStrip (pyLower cmd))) = some name)
    (h5 : name.isEmpty = false)
    (h6 : name.contains '.' = false)
    (h7 : pyIn (str "java") (pyStrip (pyLower cmd)) = true) :
    MainPy.parse_with_fallback_patterns cmd = some (str "touch " ++ (name ++ str ".java")) := by
  unfold MainPy.parse_with_fallback_patterns
  simp only [h1, Bool.false_eq_true, if_false, h2, if_true]
  unfold MainPy.creationRule
  simp only [h3, if_true, h4, h5, Bool.false_eq_true, if_false, h6]
  unfold MainPy.appendExt
  simp only [h7, if_true]

/-- Witness for C7's corrected claim at `"create a file named prog in java"`. -/
theorem c7_main_java_extension_witness :
    MainPy.parse_with_fallback_patterns (str "create a file named prog in java") =
      some (str "touch " ++ (str "prog" ++ str ".java")) :=
  c7_main_java_extension (str "create a file named prog in java") (str "prog") (by decide)
    (by decide) (by decide) (by decide) (by decide) (by decide) (by decide)

/-! ### Claim C8 -/

/-- Counterexample for C8: the `nl_to_command` variant does pass unresolved
text through as if it were a command — its last line returns the input
unchanged, and the result does not begin with any known verb. -/
theorem c8_nl_passthrough :
    StreamlitApp.nl_to_command (str "asdkjasjdk") = str "asdkjasjdk" ∧
    beginsWithKnownVerb (str "asdkjasjdk") = false := by decide

/-- Claim C8 (corrected): the fallback pattern resolver proper does return
an explicit failure (`none`) whenever none of its rule guards fires — it
never guesses and never returns the raw input. -/
theorem c8_fallback_returns_none (cmd : Str)
    (h1 : StreamlitApp.directCommand (pySplit cmd) = none)
    (h2 : pyInAny (pyStrip (pyLower cmd)) countPhrases = false)
    (h3 : pyInAny (pyStrip (pyLower cmd)) [str "delete", str "remove", str "del"] = false)
    (h4 : (pyIn (str "create") (pyStrip (pyLower cmd)) ||
           pyIn (str "make") (pyStrip (pyLower cmd))) = false)
    (h5 : (pyIn (str "write") (pyStrip (pyLower cmd)) &&
           (pyIn (str "to") (pyStrip (pyLower cmd)) ||
            pyIn (str "in") (pyStrip (pyLower cmd)))) = false)
    (h6 : pyInAny (pyStrip (pyLower cmd))
           [str "show", str "list", str "what files", str "see files", str "display files"] =
           false)
    (h7 : pyInAny (pyStrip (pyLower cmd))
           [str "what" ++ [aposChar] ++ str "s here", str "what is here", str "contents"] =
           false) :
    StreamlitApp.parse_with_fallback_patterns cmd = none := by
  unfold StreamlitApp.parse_with_fallback_patterns
  simp only [h1, h2, h3, h4, h5, h6, h7, Bool.false_eq_true, if_false]

/-- Witness for C8's corrected claim at `"asdkjasjdk"`. -/
theorem c8_fallback_returns_none_witness :
    StreamlitApp.parse_with_fallback_patterns (str "asdkjasjdk") = none :=
  c8_fallback_returns_none (str "asdkjasjdk") (by decide) (by decide) (by decide) (by decide)
    (by decide) (by decide) (by decide)

/-! ### Claim C5 -/

/-- Claim C5 (confirmed): write-then-read round trip.  For any token list
`cs` (not containing the redirect token) and filename `f`, if the underlying
write succeeds then `cmd_echo (cs ++ [">", f])` stores exactly the joined
content, a subsequent read returns exactly that content (no newline
appended), and `cmd_cat` renders exactly that content. -/
theorem c5_write_read_round_trip (fs fs' : FS) (cwd : List Str) (cs : List Str) (f : Str)
    (hgt : str ">" ∉ cs) (hne : cs ≠ [])
    (hw : fsWrite fs (resolvePath cwd f) (joinSpace cs) = some fs') :
    StreamlitApp.cmd_echo fs cwd (cs ++ [str ">", f]) =
      (fs', str "✅ Content written to " ++ f) ∧
    fsRead fs' (resolvePath cwd f) = ReadResult.ok (joinSpace cs) ∧
    StreamlitApp.cmd_cat fs' cwd [f] =
      str "📄 **" ++ f ++ str ":**\n```\n" ++ joinSpace cs ++ str "\n```" := by
  have hread := fsWrite_read fs fs' (resolvePath cwd f) (joinSpace cs) hw
  refine ⟨?_, hread, ?_⟩
  · unfold StreamlitApp.cmd_echo
    have hlen : decide ((cs ++ [str ">", f]).length < 3) = false := by
      have h0 : 0 < cs.length := List.length_pos.mpr hne
      simp only [List.length_append, List.length_cons, List.length_nil, decide_eq_false_iff_not]
      omega
    have hmem : decide (str ">" ∈ cs ++ [str ">", f]) = true := by
      simp
    have hidx : pyIndexOf (cs ++ [str ">", f]) (str ">") = some cs.length :=
      pyIndexOf_append_first cs [f] (str ">") hgt
    have htake : (cs ++ [str ">", f]).take cs.length = cs := List.take_left cs [str ">", f]
    have hgetD : (cs ++ [str ">", f]).getD (cs.length + 1) (str "output.txt") = f :=
      getD_append_second cs (str ">") f [] (str "output.txt")
    simp only [hlen, hmem, Bool.not_true, Bool.false_or, Bool.false_eq_true, if_false, hidx,
      htake, hgetD, hw]
  · unfold StreamlitApp.cmd_cat StreamlitApp.catOne
    simp only [List.map_cons, List.map_nil, hread, joinNL_single]

/-- Witness for C5 with content `"abc"` and filename `"f.txt"`. -/
theorem c5_write_read_round_trip_witness :
    StreamlitApp.cmd_echo [] [] ([str "abc"] ++ [str ">", str "f.txt"]) =
      ([([str "f.txt"], Node.file (str "abc"))], str "✅ Content written to " ++ str "f.txt") ∧
    fsRead [([str "f.txt"], Node.file (str "abc"))] (resolvePath [] (str "f.txt")) =
      ReadResult.ok (joinSpace [str "abc"]) ∧
    StreamlitApp.cmd_cat [([str "f.txt"], Node.file (str "abc"))] [] [str "f.txt"] =
      str "📄 **" ++ str "f.txt" ++ str ":**\n```\n" ++ joinSpace [str "abc"] ++ str "\n```" := by
  have h := c5_write_read_round_trip [] [([str "f.txt"], Node.file (str "abc"))] []
    [str "abc"] (str "f.txt") (by decide) (by decide) (by decide)
  exact ⟨h.1, h.2.1, h.2.2⟩

/-! ### Claim C10 -/

/-- Claim C10 (confirmed): frame property of `cmd_touch`.  On an existing
file the open-append is a no-op: the command reports success and the
filesystem — in particular the file's content — is left exactly as it was. -/
theorem c10_touch_preserves_content (fs : FS) (cwd : List Str) (f c : Str)
    (h : lookupFS fs (resolvePath cwd f) = some (Node.file c)) :
    StreamlitApp.cmd_touch fs cwd [f] =
      (fs, str "✅ File " ++ [aposChar] ++ f ++ [aposChar] ++ str " created/updated") ∧
    lookupFS fs (resolvePath cwd f) = some (Node.file c) := by
  refine ⟨?_, h⟩
  unfold StreamlitApp.cmd_touch StreamlitApp.touchLoop
  have ht : fsTouch fs (resolvePath cwd f) = some fs := by
    unfold fsTouch
    rw [h]
  simp only [ht, StreamlitApp.touchLoop, joinNL_single]

/-- Witness for C10 at a one-file filesystem. -/
theorem c10_touch_preserves_content_witness :
    StreamlitApp.cmd_touch [([str "f"], Node.file (str "abc"))] [] [str "f"] =
      ([([str "f"], Node.file (str "abc"))],
       str "✅ File " ++ [aposChar] ++ str "f" ++ [aposChar] ++ str " created/updated") ∧
    lookupFS [([str "f"], Node.file (str "abc"))] (resolvePath [] (str "f")) =
      some (Node.file (str "abc")) :=
  c10_touch_preserves_content [([str "f"], Node.file (str "abc"))] [] (str "f") (str "abc")
    (by decide)

/-! ### Claim C6 -/

/-- Claim C6 (confirmed): `cmd_mkdir` is idempotent.  If the first creation
succeeds, a second invocation succeeds with the same message and leaves the
filesystem unchanged; the created path is present exactly once as a
directory, and every intermediate segment of the path is a directory too. -/
theorem c6_mkdir_idempotent (fs fs' : FS) (cwd : List Str) (x : Str)
    (hwf : wfFS fs) (hne : resolvePath cwd x ≠ [])
    (hm : fsMakedirs fs (resolvePath cwd x) = some fs') :
    StreamlitApp.cmd_mkdir fs cwd [x] = (fs', str "✅ Directory created: " ++ x) ∧
    StreamlitApp.cmd_mkdir fs' cwd [x] = (fs', str "✅ Directory created: " ++ x) ∧
    lookupFS fs' (resolvePath cwd x) = some Node.dir ∧
    countPath fs' (resolvePath cwd x) = 1 ∧
    (pathSegs (resolvePath cwd x)).all (fun q => isDirAt fs' q) = true := by
  set p := resolvePath cwd x with hp
  have hm0 := hm
  unfold fsMakedirs at hm
  cases hg : (pathSegs p).any (fun q => isFileAt fs q) with
  | true => rw [hg] at hm; simp at hm
  | false =>
    rw [hg] at hm
    simp only [Bool.false_eq_true, if_false, Option.some.injEq] at hm
    have hfile : ∀ q ∈ pathSegs p, isFileAt fs q = false := by
      intro q hq
      cases hfq : isFileAt fs q with
      | false => rfl
      | true => exact absurd (List.any_eq_true.mpr ⟨q, hq, hfq⟩) (by rw [hg]; simp)
    have hdirs : ∀ q ∈ pathSegs p, lookupFS fs' q = some Node.dir := by
      rw [← hm]
      exact mkdirsFold_all_dirs (pathSegs p) fs hfile
    have hlenpos : 0 < p.length := List.length_pos.mpr hne
    have hpmem : p ∈ pathSegs p := by
      unfold pathSegs
      rw [List.mem_map]
      refine ⟨p.length - 1, ?_, ?_⟩
      · rw [List.mem_range]; omega
      · have hl : p.length - 1 + 1 = p.length := by omega
        rw [hl, List.take_length]
    have hlookup : lookupFS fs' p = some Node.dir := hdirs p hpmem
    have hm2 : fsMakedirs fs' p = some fs' := by
      unfold fsMakedirs
      have hg2 : (pathSegs p).any (fun q => isFileAt fs' q) = false := by
        cases hg2 : (pathSegs p).any (fun q => isFileAt fs' q) with
        | false => rfl
        | true =>
          obtain ⟨q, hq, hfq⟩ := List.any_eq_true.mp hg2
          rw [isFileAt, hdirs q hq] at hfq
          simp at hfq
      rw [hg2]
      simp only [Bool.false_eq_true, if_false, Option.some.injEq]
      exact mkdirsFold_noop (pathSegs p) fs' hdirs
    refine ⟨?_, ?_, hlookup, ?_, ?_⟩
    · unfold StreamlitApp.cmd_mkdir StreamlitApp.mkdirLoop
      rw [← hp]
      simp only [hm0, StreamlitApp.mkdirLoop, joinNL_single]
    · unfold StreamlitApp.cmd_mkdir StreamlitApp.mkdirLoop
      rw [← hp]
      simp only [hm2, StreamlitApp.mkdirLoop, joinNL_single]
    · have hwf' : wfFS fs' := by
        rw [← hm]
        exact wf_mkdirsFold (pathSegs p) fs hwf
      exact countPath_of_lookup fs' p Node.dir hwf' hlookup
    · rw [List.all_eq_true]
      intro q hq
      exact decide_eq_true (hdirs q hq)

/-- Witness for C6: creating `"a/b"` twice in an empty filesystem. -/
theorem c6_mkdir_idempotent_witness :
    StreamlitApp.cmd_mkdir [] [] [str "a/b"] =
      ([([str "a"], Node.dir), ([str "a", str "b"], Node.dir)],
       str "✅ Directory created: " ++ str "a/b") ∧
    StreamlitApp.cmd_mkdir [([str "a"], Node.dir), ([str "a", str "b"], Node.dir)] [] [str "a/b"] =
      ([([str "a"], Node.dir), ([str "a", str "b"], Node.dir)],
       str "✅ Directory created: " ++ str "a/b") := by
  have h := c6_mkdir_idempotent [] [([str "a"], Node.dir), ([str "a", str "b"], Node.dir)]
    [] (str "a/b") (by decide) (by decide) (by decide)
  exact ⟨h.1, h.2.1⟩

/-! ### Claim C9 -/

theorem bw_of_append (v rest : Str) (hv : v ∈ knownVerbs) :
    beginsWithKnownVerb (v ++ rest) = true := by
  unfold beginsWithKnownVerb
  rw [List.any_eq_true]
  exact ⟨v, hv, isPrefixOf_append_self v rest⟩

theorem directCommand_bw (ow : List Str) (r : Str)
    (h : StreamlitApp.directCommand ow = some r) : beginsWithKnownVerb r = true := by
  rcases ow with _ | ⟨w0, _ | ⟨target, _ | ⟨w2, rest⟩⟩⟩
  · simp [StreamlitApp.directCommand] at h
  · simp [StreamlitApp.directCommand] at h
  · simp only [StreamlitApp.directCommand] at h
    split at h
    · obtain rfl := Option.some.inj h
      exact bw_of_append (str "rm") _ (by decide)
    · split at h
      · obtain rfl := Option.some.inj h
        exact bw_of_append (str "touch") _ (by decide)
      · split at h
        · obtain rfl := Option.some.inj h
          exact bw_of_append (str "mkdir") _ (by decide)
        · split at h
          · obtain rfl := Option.some.inj h
            exact bw_of_append (str "rmdir") _ (by decide)
          · simp at h
  · simp [StreamlitApp.directCommand] at h

theorem deletionRule_bw (low : Str) (ow : List Str) :
    beginsWithKnownVerb (StreamlitApp.deletionRule low ow) = true := by
  unfold StreamlitApp.deletionRule
  split
  · split
    · exact bw_of_append (str "rmdir") _ (by decide)
    · decide
  · split
    · exact bw_of_append (str "rm") _ (by decide)
    · split
      · exact bw_of_append (str "rm") _ (by decide)
      · split
        · exact bw_of_append (str "rm") _ (by decide)
        · decide

theorem creationRule_bw (low : Str) (ow : List Str) (r : Str)
    (h : StreamlitApp.creationRule low ow = some r) : beginsWithKnownVerb r = true := by
  unfold StreamlitApp.creationRule at h
  split at h
  · obtain rfl := Option.some.inj h
    dsimp only
    repeat' split
    all_goals exact bw_of_append (str "touch") _ (by decide)
  · split at h
    · obtain rfl := Option.some.inj h
      repeat' split
      all_goals exact bw_of_append (str "mkdir") _ (by decide)
    · simp at h

theorem writeRule_bw (ow : List Str) (r : Str)
    (h : StreamlitApp.writeRule ow = some r) : beginsWithKnownVerb r = true := by
  unfold StreamlitApp.writeRule at h
  dsimp only at h
  repeat' split at h
  all_goals first
    | (obtain rfl := Option.some.inj h
       exact bw_of_append (str "touch") _ (by decide))
    | (obtain rfl := Option.some.inj h
       rw [List.append_assoc, List.append_assoc]
       exact bw_of_append (str "echo") _ (by decide))
    | simp at h

/-- Claim C9 (confirmed): whenever the fallback resolver succeeds, the
resolved command string begins with one of the known verbs (ls, pwd, mkdir,
touch, cat, rm, rmdir, echo, count, help) — the resolver never emits a
command outside the enumerated set. -/
theorem c9_verb_invariant (cmd r : Str)
    (h : StreamlitApp.parse_with_fallback_patterns cmd = some r) :
    beginsWithKnownVerb r = true := by
  unfold StreamlitApp.parse_with_fallback_patterns at h
  dsimp only at h
  split at h
  · rename_i r1 heq
    obtain rfl := Option.some.inj h
    exact directCommand_bw _ _ heq
  · rename_i heq0
    split at h
    · obtain rfl := Option.some.inj h
      decide
    · split at h
      · obtain rfl := Option.some.inj h
        exact deletionRule_bw _ _
      · split at h
        · rename_i r2 heq2
          obtain rfl := Option.some.inj h
          split at heq2
          · exact creationRule_bw _ _ _ heq2
          · simp at heq2
        · rename_i heq2
          split at h
          · rename_i r3 heq3
            obtain rfl := Option.some.inj h
            split at heq3
            · exact writeRule_bw _ _ heq3
            · simp at heq3
          · rename_i heq3
            split at h
            · obtain rfl := Option.some.inj h
              decide
            · split at h
              · obtain rfl := Option.some.inj h
                decide
              · simp at h

/-- Witness for C9: `"delete x"` resolves to `"rm x"`, which begins with a
known verb. -/
theorem c9_verb_invariant_witness : beginsWithKnownVerb (str "rm x") = true :=
  c9_verb_invariant (str "delete x") (str "rm x") (by decide)
